import Mathlib

/-!
Verification of the link-error handling pipeline of `conda_build/link.py`.

The module defines `BaseLinkErrorHandler` (pipeline driver `handle`, the
`_finalize` phase and the `final_message` text) and `LinkErrorHandler`
(the `_categorize_errors` and `_process_errors` phases).  We embed the
handler state as a structure, Python sets as insertion-ordered duplicate-free
lists (only membership matters to the code), Python dicts as
insertion-ordered association lists with unique keys, `assert` failures as
an `Except` error carrying the assertion data and the handler state at the
raise point, and `sys.exit(1)` / normal return / a propagating
`AssertionError` as the three constructors of `HandleResult`.
-/

set_option autoImplicit false

namespace CondaBuild

/-- Modelled from the spec: the `LinkError` variant tags (`BrokenLinkage`,
`ExternalLinkage`, and further tags such as `RecipeCorrectButBuildScriptBroken`)
live in `conda_build.dll`, which is not part of this snapshot.  Per the spec,
a record carries a `dependent_library_name`; an `ExternalLinkage` record is a
refinement of `BrokenLinkage` and additionally carries an
`actual_link_target`; a record may also be neither broken- nor
external-linkage, which the categorizer treats as an internal error. -/
inductive LinkError where
  | brokenLinkage (dependent_library_name : String)
  | externalLinkage (dependent_library_name : String) (actual_link_target : String)
  | neitherLinkage (dependent_library_name : String)
deriving DecidableEq

def LinkError.dependent_library_name : LinkError → String
  | .brokenLinkage n => n
  | .externalLinkage n _ => n
  | .neitherLinkage n => n

/-- `isinstance(error, ExternalLinkage)`. -/
def LinkError.isExternalLinkage : LinkError → Bool
  | .externalLinkage _ _ => true
  | _ => false

/-- `isinstance(error, BrokenLinkage)`: `ExternalLinkage` derives from
`BrokenLinkage`, so it also tests positive here. -/
def LinkError.isBrokenLinkage : LinkError → Bool
  | .brokenLinkage _ => true
  | .externalLinkage _ _ => true
  | .neitherLinkage _ => false

/-- `error.actual_link_target`; only ever read on `ExternalLinkage` records. -/
def LinkError.actual_link_target : LinkError → String
  | .externalLinkage _ t => t
  | _ => ""

/-- Python `set.add`: membership-preserving insert (we fix insertion order as
the iteration order of the modelled set). -/
def setAdd (s : List String) (x : String) : List String :=
  if x ∈ s then s else s ++ [x]

/-- Python `d[k] = v` on a dict: overwrite in place if the key exists
(keeping its position), otherwise append; keys stay unique. -/
def dictSet : List (String × String) → String → String → List (String × String)
  | [], k, v => [(k, v)]
  | p :: rest, k, v => if p.1 = k then (k, v) :: rest else p :: dictSet rest k v

/-- Python `d.keys()` in iteration (insertion) order. -/
def dictKeys (d : List (String × String)) : List String := d.map Prod.fst

/-- Python `d.values()` in iteration (insertion) order. -/
def dictValues (d : List (String × String)) : List String := d.map Prod.snd

/-- Python `d.get(k)`. -/
def dictGet : List (String × String) → String → Option String
  | [], _ => none
  | p :: rest, k => if p.1 = k then some p.2 else dictGet rest k

/-- The mutable fields of a `LinkErrorHandler` instance, plus the stderr
stream it writes to (one entry per `sys.stderr.write` call).  `metadata`,
`exception` and `recipes` are opaque pass-through context and carry no
behavior, so they are not modelled. -/
structure HandlerState where
  names : List String
  broken : List String
  externMap : List (String × String)
  new_library_recipe_needed : List String
  error_messages : List String
  stderr : List String
deriving DecidableEq

/-- `BaseLinkErrorHandler.__init__`: every classification field starts
empty (`self.names = set()`, `self.broken = set()`, `self.extern = {}`,
`self.new_library_recipe_needed = []`); nothing has been written yet. -/
def initState : HandlerState :=
  { names := []
    broken := []
    externMap := []
    new_library_recipe_needed := []
    error_messages := []
    stderr := [] }

/-- The data carried by each `assert` in the module. -/
inductive AssertErr where
  | notBrokenLinkage (error : LinkError)
  | disjointnessViolated (intersection left right : List String)
  | msgsEmpty
deriving DecidableEq

/-- The loop body of `LinkErrorHandler._categorize_errors`: add the record's
name to `names`; if the record is `ExternalLinkage` store its target in
`extern`; otherwise `assert isinstance(error, BrokenLinkage)` and add the
name to `broken`.  On assertion failure the state (name already added) is
carried with the error. -/
def categorizeStep (st : HandlerState) (error : LinkError) :
    Except (AssertErr × HandlerState) HandlerState :=
  let name := error.dependent_library_name
  let st1 := { st with names := setAdd st.names name }
  if error.isExternalLinkage then
    Except.ok { st1 with externMap := dictSet st1.externMap name error.actual_link_target }
  else if error.isBrokenLinkage then
    Except.ok { st1 with broken := setAdd st1.broken name }
  else
    Except.error (AssertErr.notBrokenLinkage error, st1)

/-- `for error in self.errors: ...` — the categorization scan. -/
def categorizeLoop (st : HandlerState) :
    List LinkError → Except (AssertErr × HandlerState) HandlerState
  | [] => Except.ok st
  | e :: rest =>
    match categorizeStep st e with
    | Except.ok st1 => categorizeLoop st1 rest
    | Except.error p => Except.error p

/-- The local `assert_disjoint(left, right)` helper:
`assert not set(left).intersection(right)`, with the intersection, `left`
and `right` as assertion data. -/
def assert_disjoint (left right : List String) : Except AssertErr Unit :=
  let intersection := left.filter (fun x => decide (x ∈ right))
  if intersection = [] then Except.ok ()
  else Except.error (AssertErr.disjointnessViolated intersection left right)

/-- `LinkErrorHandler._categorize_errors`: run the scan, check
`assert_disjoint(self.extern.keys(), self.broken)`, then append every value
of `extern` to `new_library_recipe_needed` in mapping order.  (The
`if self.broken:` block in the source only binds a local `msg` that is
never used, so it has no observable effect.) -/
def categorize_errors (st : HandlerState) (errors : List LinkError) :
    Except (AssertErr × HandlerState) HandlerState :=
  match categorizeLoop st errors with
  | Except.error p => Except.error p
  | Except.ok st1 =>
    match assert_disjoint (dictKeys st1.externMap) st1.broken with
    | Except.error a => Except.error (a, st1)
    | Except.ok _ =>
      Except.ok { st1 with
        new_library_recipe_needed :=
          st1.new_library_recipe_needed ++ dictValues st1.externMap }

/-- The message synthesized when `new_library_recipe_needed` is non-empty. -/
def external_message (paths : List String) : String :=
  "Error: external linkage detected to libraries living outside the build root:\n    "
    ++ String.intercalate "\n   " paths ++ "\n"

/-- The message synthesized when `broken` is non-empty. -/
def broken_message (names : List String) : String :=
  "Error: broken linkage detected for the following packages: "
    ++ String.intercalate ", " names

/-- The `msgs` list built by `_process_errors`: one external-recipe message
if `new_library_recipe_needed` is non-empty, then one broken-linkage message
if `broken` is non-empty. -/
def processMsgs (st : HandlerState) : List String :=
  (if st.new_library_recipe_needed = [] then []
   else [external_message st.new_library_recipe_needed]) ++
  (if st.broken = [] then [] else [broken_message st.broken])

/-- `LinkErrorHandler._process_errors`: build the message list, `assert msgs`,
write the newline-joined messages to stderr, and retain them as
`self.error_messages`. -/
def process_errors (st : HandlerState) :
    Except (AssertErr × HandlerState) HandlerState :=
  if processMsgs st = [] then Except.error (AssertErr.msgsEmpty, st)
  else Except.ok { st with
    stderr := st.stderr ++ [String.intercalate "\n" (processMsgs st) ++ "\n"]
    error_messages := processMsgs st }

/-- The module-level `final_message` text (after `textwrap.dedent`). -/
def final_message : String :=
  "\nSee http://conda.pydata.org/docs/link-errors.html for more info.\n\nTip: run `conda build --ignore-link-errors` to ignore these errors and\nbuild the package anyway.  Note that the resulting package will not work\nif you install it on a different system *unless* that system also has all\nof the libraries listed above installed.\n"

/-- `BaseLinkErrorHandler._finalize`: `sys.stderr.write(final_message + '\n')`. -/
def finalize (st : HandlerState) : HandlerState :=
  { st with stderr := st.stderr ++ [final_message ++ "\n"] }

/-- Outcome of one `handle()` call: normal return, `sys.exit(code)`, or a
propagating `AssertionError` (with the state at the raise point). -/
inductive HandleResult where
  | returned (st : HandlerState)
  | exited (code : Nat) (st : HandlerState)
  | raisedAssertion (err : AssertErr) (st : HandlerState)
deriving DecidableEq

/-- `BaseLinkErrorHandler.handle`: `_categorize_errors()`, then
`_process_errors()`, then `_finalize()`, then
`if not self.ignore_link_errors: sys.exit(1)`. -/
def handle (errors : List LinkError) (ignore_link_errors : Bool) : HandleResult :=
  match categorize_errors initState errors with
  | Except.error (a, st) => HandleResult.raisedAssertion a st
  | Except.ok st =>
    match process_errors st with
    | Except.error (a, st1) => HandleResult.raisedAssertion a st1
    | Except.ok st1 =>
      let st2 := finalize st1
      if ignore_link_errors then HandleResult.returned st2
      else HandleResult.exited 1 st2

/-- Every record is recognizably a linkage error (no record outside the
`BrokenLinkage` hierarchy). -/
def wellFormed (errors : List LinkError) : Prop :=
  ∀ e ∈ errors, e.isBrokenLinkage = true

instance wellFormedDecidable (errors : List LinkError) : Decidable (wellFormed errors) :=
  List.decidableBAll _ errors

/-- The `actual_link_target` of the last external-linkage record for name
`n` in the input, if any: the value `extern[n]` must end up with. -/
def lastExternalTarget : List LinkError → String → Option String
  | [], _ => none
  | e :: rest, n =>
    match lastExternalTarget rest n with
    | some t => some t
    | none =>
      match e with
      | LinkError.externalLinkage m t => if m = n then some t else none
      | _ => none

/-! ### Basic lemmas about the set / dict models -/

theorem mem_setAdd {s : List String} {x y : String} :
    x ∈ setAdd s y ↔ x ∈ s ∨ x = y := by
  unfold setAdd
  by_cases h : y ∈ s
  · rw [if_pos h]
    constructor
    · exact Or.inl
    · rintro (hx | rfl)
      · exact hx
      · exact h
  · rw [if_neg h]
    simp [List.mem_append]

theorem setAdd_ne_nil {s : List String} {y : String} : setAdd s y ≠ [] := by
  intro hnil
  have : y ∈ setAdd s y := mem_setAdd.mpr (Or.inr rfl)
  rw [hnil] at this
  exact (List.not_mem_nil y) this

theorem dictKeys_dictSet (d : List (String × String)) (k v : String) :
    dictKeys (dictSet d k v) =
      if k ∈ dictKeys d then dictKeys d else dictKeys d ++ [k] := by
  induction d with
  | nil => simp [dictSet, dictKeys]
  | cons p rest ih =>
    by_cases h : p.1 = k
    · simp [dictSet, dictKeys, h]
    · have hk : ¬ k = p.1 := fun hkp => h hkp.symm
      have h1 : dictKeys (p :: dictSet rest k v) = p.1 :: dictKeys (dictSet rest k v) := rfl
      have h2 : dictKeys (p :: rest) = p.1 :: dictKeys rest := rfl
      simp only [dictSet, if_neg h]
      rw [h1, h2, ih]
      by_cases hmem : k ∈ dictKeys rest
      · rw [if_pos hmem, if_pos (List.mem_cons_of_mem _ hmem)]
      · rw [if_neg hmem, if_neg ?_]
        · simp
        · intro hc
          rcases List.mem_cons.mp hc with hc | hc
          · exact hk hc
          · exact hmem hc

theorem mem_dictKeys_dictSet {d : List (String × String)} {k v x : String} :
    x ∈ dictKeys (dictSet d k v) ↔ x ∈ dictKeys d ∨ x = k := by
  rw [dictKeys_dictSet]
  by_cases hk : k ∈ dictKeys d
  · rw [if_pos hk]
    constructor
    · exact Or.inl
    · rintro (hx | rfl)
      · exact hx
      · exact hk
  · rw [if_neg hk]
    simp [List.mem_append]

theorem nodup_dictKeys_dictSet {d : List (String × String)} {k v : String}
    (h : (dictKeys d).Nodup) : (dictKeys (dictSet d k v)).Nodup := by
  rw [dictKeys_dictSet]
  by_cases hk : k ∈ dictKeys d
  · rw [if_pos hk]; exact h
  · rw [if_neg hk]
    simp only [List.nodup_append, List.nodup_cons, List.nodup_nil]
    exact ⟨h, ⟨by simp, by simp⟩, by simpa [List.disjoint_singleton] using hk⟩

theorem dictGet_dictSet (d : List (String × String)) (k v n : String) :
    dictGet (dictSet d k v) n = if n = k then some v else dictGet d n := by
  induction d with
  | nil =>
    by_cases h : n = k
    · simp [dictSet, dictGet, h]
    · have : ¬ k = n := fun hkn => h hkn.symm
      simp [dictSet, dictGet, h, this]
  | cons p rest ih =>
    by_cases h : p.1 = k
    · by_cases hn : n = k
      · simp [dictSet, dictGet, h, hn]
      · have hkn : ¬ k = n := fun hkn => hn hkn.symm
        have hpn : ¬ p.1 = n := h ▸ hkn
        simp [dictSet, dictGet, h, hn, hkn, hpn]
    · by_cases hp : p.1 = n
      · have hn : ¬ n = k := fun hnk => h (hp.trans hnk)
        simp [dictSet, dictGet, h, hp, hn]
      · simp [dictSet, dictGet, h, hp, ih]

theorem dictGet_isSome_iff_mem {d : List (String × String)} {n : String} :
    (dictGet d n).isSome = true ↔ n ∈ dictKeys d := by
  induction d with
  | nil => simp [dictGet, dictKeys]
  | cons p rest ih =>
    by_cases h : p.1 = n
    · simp [dictGet, dictKeys, h]
    · have : ¬ n = p.1 := fun hn => h hn.symm
      simp [dictGet, dictKeys, h, this, ih]

/-! ### Step-level behavior of the categorization loop body -/

theorem categorizeStep_external (st : HandlerState) (n t : String) :
    categorizeStep st (LinkError.externalLinkage n t) =
      Except.ok { st with names := setAdd st.names n
                          externMap := dictSet st.externMap n t } := rfl

theorem categorizeStep_broken (st : HandlerState) (n : String) :
    categorizeStep st (LinkError.brokenLinkage n) =
      Except.ok { st with names := setAdd st.names n
                          broken := setAdd st.broken n } := rfl

theorem categorizeStep_neither (st : HandlerState) (n : String) :
    categorizeStep st (LinkError.neitherLinkage n) =
      Except.error (AssertErr.notBrokenLinkage (LinkError.neitherLinkage n),
        { st with names := setAdd st.names n }) := rfl

/-! ### Lemmas about the categorization scan -/

/-- The scan never touches `new_library_recipe_needed`, `error_messages`
or the stderr stream. -/
theorem categorizeLoop_untouched (errors : List LinkError) :
    ∀ {st st1 : HandlerState}, categorizeLoop st errors = Except.ok st1 →
      st1.new_library_recipe_needed = st.new_library_recipe_needed ∧
      st1.error_messages = st.error_messages ∧ st1.stderr = st.stderr := by
  induction errors with
  | nil =>
    intro st st1 h
    cases h
    exact ⟨rfl, rfl, rfl⟩
  | cons e rest ih =>
    intro st st1 h
    cases e with
    | brokenLinkage n =>
      simp only [categorizeLoop, categorizeStep_broken] at h
      have h2 := ih h
      exact h2
    | externalLinkage n t =>
      simp only [categorizeLoop, categorizeStep_external] at h
      have h2 := ih h
      exact h2
    | neitherLinkage n =>
      simp only [categorizeLoop, categorizeStep_neither] at h
      cases h

/-- An input containing a record outside the `BrokenLinkage` hierarchy makes
the scan raise; hence a completed scan certifies well-formed input. -/
theorem categorizeLoop_wellFormed (errors : List LinkError) :
    ∀ {st st1 : HandlerState}, categorizeLoop st errors = Except.ok st1 →
      wellFormed errors := by
  induction errors with
  | nil =>
    intro st st1 _ e he
    exact absurd he (List.not_mem_nil e)
  | cons e rest ih =>
    intro st st1 h f hf
    cases e with
    | brokenLinkage n =>
      simp only [categorizeLoop, categorizeStep_broken] at h
      rcases List.mem_cons.mp hf with rfl | hf
      · rfl
      · exact ih h f hf
    | externalLinkage n t =>
      simp only [categorizeLoop, categorizeStep_external] at h
      rcases List.mem_cons.mp hf with rfl | hf
      · rfl
      · exact ih h f hf
    | neitherLinkage n =>
      simp only [categorizeLoop, categorizeStep_neither] at h
      cases h

/-- On well-formed input the scan completes. -/
theorem categorizeLoop_ok_of_wellFormed (errors : List LinkError) :
    ∀ st : HandlerState, wellFormed errors →
      ∃ st1, categorizeLoop st errors = Except.ok st1 := by
  induction errors with
  | nil => exact fun st _ => ⟨st, rfl⟩
  | cons e rest ih =>
    intro st hwf
    have hrest : wellFormed rest := fun f hf => hwf f (List.mem_cons_of_mem e hf)
    cases e with
    | brokenLinkage n =>
      obtain ⟨st1, h1⟩ := ih _ hrest
      exact ⟨st1, by rw [categorizeLoop, categorizeStep_broken]; exact h1⟩
    | externalLinkage n t =>
      obtain ⟨st1, h1⟩ := ih _ hrest
      exact ⟨st1, by rw [categorizeLoop, categorizeStep_external]; exact h1⟩
    | neitherLinkage n =>
      have : LinkError.isBrokenLinkage (LinkError.neitherLinkage n) = true :=
        hwf _ (List.mem_cons_self _ _)
      cases this

/-- Membership in `broken` after a completed scan: exactly the
broken-linkage record names of the input, plus whatever was there before. -/
theorem categorizeLoop_broken_mem (errors : List LinkError) :
    ∀ {st st1 : HandlerState}, categorizeLoop st errors = Except.ok st1 →
      ∀ x, x ∈ st1.broken ↔ x ∈ st.broken ∨ LinkError.brokenLinkage x ∈ errors := by
  induction errors with
  | nil =>
    intro st st1 h x
    cases h
    simp
  | cons e rest ih =>
    intro st st1 h x
    cases e with
    | brokenLinkage n =>
      simp only [categorizeLoop, categorizeStep_broken] at h
      rw [ih h x]
      constructor
      · rintro (hb | hb)
        · rcases mem_setAdd.mp hb with hb | rfl
          · exact Or.inl hb
          · exact Or.inr (List.mem_cons_self _ _)
        · exact Or.inr (List.mem_cons_of_mem _ hb)
      · rintro (hb | hb)
        · exact Or.inl (mem_setAdd.mpr (Or.inl hb))
        · rcases List.mem_cons.mp hb with hb | hb
          · cases hb
            exact Or.inl (mem_setAdd.mpr (Or.inr rfl))
          · exact Or.inr hb
    | externalLinkage n t =>
      simp only [categorizeLoop, categorizeStep_external] at h
      rw [ih h x]
      constructor
      · rintro (hb | hb)
        · exact Or.inl hb
        · exact Or.inr (List.mem_cons_of_mem _ hb)
      · rintro (hb | hb)
        · exact Or.inl hb
        · rcases List.mem_cons.mp hb with hb | hb
          · cases hb
          · exact Or.inr hb
    | neitherLinkage n =>
      simp only [categorizeLoop, categorizeStep_neither] at h
      cases h

/-- Membership in `extern.keys()` after a completed scan: exactly the
external-linkage record names of the input, plus whatever was there before. -/
theorem categorizeLoop_keys_mem (errors : List LinkError) :
    ∀ {st st1 : HandlerState}, categorizeLoop st errors = Except.ok st1 →
      ∀ x, x ∈ dictKeys st1.externMap ↔
        x ∈ dictKeys st.externMap ∨ ∃ t, LinkError.externalLinkage x t ∈ errors := by
  induction errors with
  | nil =>
    intro st st1 h x
    cases h
    simp
  | cons e rest ih =>
    intro st st1 h x
    cases e with
    | brokenLinkage n =>
      simp only [categorizeLoop, categorizeStep_broken] at h
      rw [ih h x]
      constructor
      · rintro (hb | ⟨t, ht⟩)
        · exact Or.inl hb
        · exact Or.inr ⟨t, List.mem_cons_of_mem _ ht⟩
      · rintro (hb | ⟨t, ht⟩)
        · exact Or.inl hb
        · rcases List.mem_cons.mp ht with ht | ht
          · cases ht
          · exact Or.inr ⟨t, ht⟩
    | externalLinkage n t =>
      simp only [categorizeLoop, categorizeStep_external] at h
      rw [ih h x]
      constructor
      · rintro (hb | ⟨u, hu⟩)
        · rcases mem_dictKeys_dictSet.mp hb with hb | rfl
          · exact Or.inl hb
          · exact Or.inr ⟨t, List.mem_cons_self _ _⟩
        · exact Or.inr ⟨u, List.mem_cons_of_mem _ hu⟩
      · rintro (hb | ⟨u, hu⟩)
        · exact Or.inl (mem_dictKeys_dictSet.mpr (Or.inl hb))
        · rcases List.mem_cons.mp hu with hu | hu
          · cases hu
            exact Or.inl (mem_dictKeys_dictSet.mpr (Or.inr rfl))
          · exact Or.inr ⟨u, hu⟩
    | neitherLinkage n =>
      simp only [categorizeLoop, categorizeStep_neither] at h
      cases h

/-- The scan preserves the invariant `names = broken ∪ extern.keys()`. -/
theorem categorizeLoop_namesInv (errors : List LinkError) :
    ∀ {st st1 : HandlerState}, categorizeLoop st errors = Except.ok st1 →
      (∀ x, x ∈ st.names ↔ x ∈ st.broken ∨ x ∈ dictKeys st.externMap) →
      ∀ x, x ∈ st1.names ↔ x ∈ st1.broken ∨ x ∈ dictKeys st1.externMap := by
  induction errors with
  | nil =>
    intro st st1 h hinv
    cases h
    exact hinv
  | cons e rest ih =>
    intro st st1 h hinv
    cases e with
    | brokenLinkage n =>
      simp only [categorizeLoop, categorizeStep_broken] at h
      refine ih h ?_
      intro x
      show x ∈ setAdd st.names n ↔ x ∈ setAdd st.broken n ∨ x ∈ dictKeys st.externMap
      rw [mem_setAdd, mem_setAdd, hinv x]
      tauto
    | externalLinkage n t =>
      simp only [categorizeLoop, categorizeStep_external] at h
      refine ih h ?_
      intro x
      show x ∈ setAdd st.names n ↔ x ∈ st.broken ∨ x ∈ dictKeys (dictSet st.externMap n t)
      rw [mem_setAdd, mem_dictKeys_dictSet, hinv x]
      tauto
    | neitherLinkage n =>
      simp only [categorizeLoop, categorizeStep_neither] at h
      cases h

/-- The scan preserves uniqueness of the keys of `extern`. -/
theorem categorizeLoop_nodup (errors : List LinkError) :
    ∀ {st st1 : HandlerState}, categorizeLoop st errors = Except.ok st1 →
      (dictKeys st.externMap).Nodup → (dictKeys st1.externMap).Nodup := by
  induction errors with
  | nil =>
    intro st st1 h hnd
    cases h
    exact hnd
  | cons e rest ih =>
    intro st st1 h hnd
    cases e with
    | brokenLinkage n =>
      simp only [categorizeLoop, categorizeStep_broken] at h
      exact ih h hnd
    | externalLinkage n t =>
      simp only [categorizeLoop, categorizeStep_external] at h
      exact ih h (nodup_dictKeys_dictSet hnd)
    | neitherLinkage n =>
      simp only [categorizeLoop, categorizeStep_neither] at h
      cases h

/-- After a completed scan, `extern[n]` holds the `actual_link_target` of the
last external-linkage record named `n`, falling back to the pre-scan entry. -/
theorem categorizeLoop_dictGet (errors : List LinkError) :
    ∀ {st st1 : HandlerState}, categorizeLoop st errors = Except.ok st1 →
      ∀ n, dictGet st1.externMap n =
        match lastExternalTarget errors n with
        | some t => some t
        | none => dictGet st.externMap n := by
  induction errors with
  | nil =>
    intro st st1 h n
    cases h
    rfl
  | cons e rest ih =>
    intro st st1 h n
    cases e with
    | brokenLinkage m =>
      simp only [categorizeLoop, categorizeStep_broken] at h
      have h2 := ih h n
      rw [h2]
      cases hrest : lastExternalTarget rest n <;>
        simp [lastExternalTarget, hrest]
    | externalLinkage m t =>
      simp only [categorizeLoop, categorizeStep_external] at h
      have h2 := ih h n
      rw [h2]
      cases hrest : lastExternalTarget rest n with
      | some u => simp [lastExternalTarget, hrest]
      | none =>
        show (dictGet (dictSet st.externMap m t) n) =
          match lastExternalTarget (LinkError.externalLinkage m t :: rest) n with
          | some u => some u
          | none => dictGet st.externMap n
        rw [dictGet_dictSet]
        by_cases hmn : m = n
        · simp [lastExternalTarget, hrest, hmn]
        · have hnm : ¬ n = m := fun hc => hmn hc.symm
          simp [lastExternalTarget, hrest, hmn, hnm]
    | neitherLinkage m =>
      simp only [categorizeLoop, categorizeStep_neither] at h
      cases h

/-! ### Lemmas about `_categorize_errors` as a whole -/

/-- Inverting a completed `_categorize_errors` run into its three stages. -/
theorem categorize_ok_inv {st stf : HandlerState} {errors : List LinkError}
    (h : categorize_errors st errors = Except.ok stf) :
    ∃ st1, categorizeLoop st errors = Except.ok st1 ∧
      assert_disjoint (dictKeys st1.externMap) st1.broken = Except.ok () ∧
      stf = { st1 with new_library_recipe_needed :=
        st1.new_library_recipe_needed ++ dictValues st1.externMap } := by
  unfold categorize_errors at h
  cases hl : categorizeLoop st errors with
  | error p =>
    rw [hl] at h
    cases h
  | ok st1 =>
    simp only [hl] at h
    cases ha : assert_disjoint (dictKeys st1.externMap) st1.broken with
    | error a =>
      simp only [ha] at h
      cases h
    | ok u =>
      cases u
      simp only [ha] at h
      cases h
      exact ⟨st1, rfl, ha, rfl⟩

/-- Rebuilding a completed `_categorize_errors` run from its three stages. -/
theorem categorize_ok_intro {st st1 : HandlerState} {errors : List LinkError}
    (hl : categorizeLoop st errors = Except.ok st1)
    (ha : assert_disjoint (dictKeys st1.externMap) st1.broken = Except.ok ()) :
    categorize_errors st errors =
      Except.ok { st1 with new_library_recipe_needed :=
        st1.new_library_recipe_needed ++ dictValues st1.externMap } := by
  simp only [categorize_errors, hl, ha]

/-- A successful `assert_disjoint` really is disjointness. -/
theorem assert_disjoint_ok_iff {left right : List String} :
    assert_disjoint left right = Except.ok () ↔ ∀ x ∈ left, x ∉ right := by
  unfold assert_disjoint
  by_cases hnil : left.filter (fun x => decide (x ∈ right)) = []
  · rw [if_pos hnil]
    rw [List.filter_eq_nil_iff] at hnil
    constructor
    · intro _ x hx hxr
      exact hnil x hx (by simpa using hxr)
    · intro _
      rfl
  · rw [if_neg hnil]
    constructor
    · intro h
      cases h
    · intro h
      refine absurd ?_ hnil
      rw [List.filter_eq_nil_iff]
      intro a ha
      simpa using h a ha

/-- A failed `assert_disjoint` names every conflicting key in the carried
intersection. -/
theorem assert_disjoint_error_of_mem {left right : List String} {x : String}
    (hl : x ∈ left) (hr : x ∈ right) :
    assert_disjoint left right = Except.error
      (AssertErr.disjointnessViolated
        (left.filter (fun y => decide (y ∈ right))) left right) ∧
    x ∈ left.filter (fun y => decide (y ∈ right)) := by
  have hmem : x ∈ left.filter (fun y => decide (y ∈ right)) :=
    List.mem_filter.mpr ⟨hl, by simpa using hr⟩
  have hne : left.filter (fun y => decide (y ∈ right)) ≠ [] :=
    List.ne_nil_of_mem hmem
  refine ⟨?_, hmem⟩
  unfold assert_disjoint
  rw [if_neg hne]

/-! ### Lemmas about `_process_errors` -/

theorem processMsgs_ne_of_broken {st : HandlerState} (h : st.broken ≠ []) :
    processMsgs st ≠ [] := by
  unfold processMsgs
  rw [if_neg h]
  simp

theorem processMsgs_ne_of_recipe {st : HandlerState}
    (h : st.new_library_recipe_needed ≠ []) : processMsgs st ≠ [] := by
  unfold processMsgs
  rw [if_neg h]
  simp

theorem process_errors_ok {st : HandlerState} (h : processMsgs st ≠ []) :
    process_errors st = Except.ok { st with
      stderr := st.stderr ++ [String.intercalate "\n" (processMsgs st) ++ "\n"]
      error_messages := processMsgs st } := by
  unfold process_errors
  rw [if_neg h]

/-- Shared workhorse: a non-empty input that categorized successfully always
yields a successful `_process_errors` run with a non-empty retained message
list, written newline-joined to stderr. -/
theorem process_after_categorize {errors : List LinkError} {stf : HandlerState}
    (h1 : errors ≠ [])
    (h : categorize_errors initState errors = Except.ok stf) :
    ∃ stp, process_errors stf = Except.ok stp ∧
      stp.error_messages ≠ [] ∧
      stp.stderr = stf.stderr ++
        [String.intercalate "\n" stp.error_messages ++ "\n"] := by
  obtain ⟨st1, hl, ha, rfl⟩ := categorize_ok_inv h
  have hmsgs : processMsgs { st1 with new_library_recipe_needed :=
      st1.new_library_recipe_needed ++ dictValues st1.externMap } ≠ [] := by
    cases errors with
    | nil => exact absurd rfl h1
    | cons e rest =>
      have hwf : wellFormed (e :: rest) := categorizeLoop_wellFormed _ hl
      cases e with
      | brokenLinkage n =>
        have hn : n ∈ st1.broken := by
          rw [categorizeLoop_broken_mem _ hl n]
          exact Or.inr (List.mem_cons_self _ _)
        exact processMsgs_ne_of_broken (List.ne_nil_of_mem hn)
      | externalLinkage n t =>
        have hn : n ∈ dictKeys st1.externMap := by
          rw [categorizeLoop_keys_mem _ hl n]
          exact Or.inr ⟨t, List.mem_cons_self _ _⟩
        have hx : dictValues st1.externMap ≠ [] := by
          intro hc
          rw [show dictValues st1.externMap = [] ↔ st1.externMap = [] by
                simp [dictValues]] at hc
          rw [hc] at hn
          exact (List.not_mem_nil n) hn
        refine processMsgs_ne_of_recipe ?_
        show st1.new_library_recipe_needed ++ dictValues st1.externMap ≠ []
        simp [hx]
      | neitherLinkage n =>
        have := hwf _ (List.mem_cons_self _ _)
        cases this
  refine ⟨_, process_errors_ok hmsgs, ?_, rfl⟩
  exact hmsgs

/-- The last stderr write of `_finalize` is always the fixed closing text. -/
theorem getLast?_finalize (st : HandlerState) :
    (finalize st).stderr.getLast? = some (final_message ++ "\n") := by
  show (st.stderr ++ [final_message ++ "\n"]).getLast? = some (final_message ++ "\n")
  rw [List.getLast?_concat]

/-! ### Concrete example inputs used by the witnesses -/

def exampleBrokenOnly : List LinkError :=
  [LinkError.brokenLinkage "libfoo.so"]

def exampleMixed : List LinkError :=
  [LinkError.brokenLinkage "libfoo.so",
   LinkError.externalLinkage "libbar.so" "/opt/libs/libbar.so"]

def exampleConflict : List LinkError :=
  [LinkError.brokenLinkage "liba.so",
   LinkError.externalLinkage "liba.so" "/opt/libs/liba.so"]

def exampleDupExternal : List LinkError :=
  [LinkError.externalLinkage "libbar.so" "/old/libbar.so",
   LinkError.externalLinkage "libbar.so" "/new/libbar.so",
   LinkError.externalLinkage "libbaz.so" "/opt/libbaz.so"]

def brokenCategorized : HandlerState :=
  { names := ["libfoo.so"]
    broken := ["libfoo.so"]
    externMap := []
    new_library_recipe_needed := []
    error_messages := []
    stderr := [] }

def mixedCategorized : HandlerState :=
  { names := ["libfoo.so", "libbar.so"]
    broken := ["libfoo.so"]
    externMap := [("libbar.so", "/opt/libs/libbar.so")]
    new_library_recipe_needed := ["/opt/libs/libbar.so"]
    error_messages := []
    stderr := [] }

def dupCategorized : HandlerState :=
  { names := ["libbar.so", "libbaz.so"]
    broken := []
    externMap := [("libbar.so", "/new/libbar.so"), ("libbaz.so", "/opt/libbaz.so")]
    new_library_recipe_needed := ["/new/libbar.so", "/opt/libbaz.so"]
    error_messages := []
    stderr := [] }

def brokenProcessed : HandlerState :=
  { brokenCategorized with
    stderr := [String.intercalate "\n" (processMsgs brokenCategorized) ++ "\n"]
    error_messages := processMsgs brokenCategorized }

def brokenHandled : HandlerState := finalize brokenProcessed

def HandleResult.isReturned : HandleResult → Bool
  | .returned _ => true
  | _ => false

def HandleResult.isExited : HandleResult → Bool
  | .exited _ _ => true
  | _ => false

/-! ### The claims -/

/-- Claim C1: after a completed `_categorize_errors` run, `names` is exactly
the union of `broken` and the keys of `extern`, and `broken` is disjoint
from the keys of `extern`. -/
theorem names_union_and_disjoint (errors : List LinkError) (stf : HandlerState)
    (h : categorize_errors initState errors = Except.ok stf) :
    (∀ x, x ∈ stf.names ↔ x ∈ stf.broken ∨ x ∈ dictKeys stf.externMap) ∧
    (∀ x, ¬ (x ∈ stf.broken ∧ x ∈ dictKeys stf.externMap)) := by
  obtain ⟨st1, hl, ha, rfl⟩ := categorize_ok_inv h
  constructor
  · intro x
    have hinv := categorizeLoop_namesInv errors hl
      (by intro y; simp [initState, dictKeys]) x
    exact hinv
  · rintro x ⟨hb, hk⟩
    exact assert_disjoint_ok_iff.mp ha x hk hb

/-- Witness for C1 at a mixed broken/external input. -/
theorem names_union_and_disjoint_witness :
    categorize_errors initState exampleMixed = Except.ok mixedCategorized ∧
    ((∀ x, x ∈ mixedCategorized.names ↔
        x ∈ mixedCategorized.broken ∨ x ∈ dictKeys mixedCategorized.externMap) ∧
     (∀ x, ¬ (x ∈ mixedCategorized.broken ∧
        x ∈ dictKeys mixedCategorized.externMap))) :=
  ⟨rfl, names_union_and_disjoint exampleMixed mixedCategorized rfl⟩

/-- Claim C2, counterexample: on a non-empty error collection in which the
same name is reported both broken and external, `handle` raises the
disjointness assertion, so with `ignore_link_errors=True` it does not return
normally, and with `ignore_link_errors=False` it does not exit. -/
theorem handle_termination_counterexample :
    exampleConflict ≠ [] ∧
    HandleResult.isReturned (handle exampleConflict true) = false ∧
    HandleResult.isExited (handle exampleConflict false) = false :=
  ⟨by decide, by decide, by decide⟩

/-- Claim C2 (amended): for every non-empty error collection whose records
are all in the `BrokenLinkage` hierarchy and in which no library name occurs
both as a broken-linkage and as an external-linkage record, `handle` with
`ignore_link_errors=True` returns normally, and with
`ignore_link_errors=False` exits with status 1, in both cases after
`_finalize` has written its closing message. -/
theorem handle_termination (errors : List LinkError)
    (h1 : errors ≠ []) (h2 : wellFormed errors)
    (h3 : ∀ n t, LinkError.brokenLinkage n ∈ errors →
      LinkError.externalLinkage n t ∈ errors → False) :
    (∃ st, handle errors true = HandleResult.returned st ∧
       st.stderr.getLast? = some (final_message ++ "\n")) ∧
    (∃ st, handle errors false = HandleResult.exited 1 st ∧
       st.stderr.getLast? = some (final_message ++ "\n")) := by
  obtain ⟨st1, hl⟩ := categorizeLoop_ok_of_wellFormed errors initState h2
  have ha : assert_disjoint (dictKeys st1.externMap) st1.broken = Except.ok () := by
    rw [assert_disjoint_ok_iff]
    intro x hk hb
    rw [categorizeLoop_keys_mem _ hl x] at hk
    rw [categorizeLoop_broken_mem _ hl x] at hb
    rcases hk with hk | ⟨t, ht⟩
    · simp [initState, dictKeys] at hk
    rcases hb with hb | hb
    · simp [initState] at hb
    exact h3 x t hb ht
  have hcat := categorize_ok_intro hl ha
  obtain ⟨stp, hp, _, _⟩ := process_after_categorize h1 hcat
  constructor
  · refine ⟨finalize stp, ?_, getLast?_finalize stp⟩
    simp [handle, hcat, hp]
  · refine ⟨finalize stp, ?_, getLast?_finalize stp⟩
    simp [handle, hcat, hp]

/-- Witness for C2 (amended) at a single broken-linkage record. -/
theorem handle_termination_witness :
    (exampleBrokenOnly ≠ [] ∧ wellFormed exampleBrokenOnly) ∧
    ((∃ st, handle exampleBrokenOnly true = HandleResult.returned st ∧
        st.stderr.getLast? = some (final_message ++ "\n")) ∧
     (∃ st, handle exampleBrokenOnly false = HandleResult.exited 1 st ∧
        st.stderr.getLast? = some (final_message ++ "\n"))) :=
  ⟨⟨by decide, by decide⟩,
   handle_termination exampleBrokenOnly (by decide) (by decide)
     (fun n t _ he => by cases List.mem_singleton.mp he)⟩

/-- Claim C3: the loop body of `_categorize_errors` tests the
external-linkage variant first and records `(name, actual_link_target)` in
`extern`; otherwise the record must be broken-linkage (raising the
`isinstance` assertion if it is neither) and its name joins `broken`; in
every case the record's name joins `names` (even on the assertion path). -/
theorem categorize_variant_priority :
    (∀ st n t, categorizeStep st (LinkError.externalLinkage n t) =
       Except.ok { st with names := setAdd st.names n
                           externMap := dictSet st.externMap n t }) ∧
    (∀ st n, categorizeStep st (LinkError.brokenLinkage n) =
       Except.ok { st with names := setAdd st.names n
                           broken := setAdd st.broken n }) ∧
    (∀ st n, categorizeStep st (LinkError.neitherLinkage n) =
       Except.error (AssertErr.notBrokenLinkage (LinkError.neitherLinkage n),
         { st with names := setAdd st.names n })) :=
  ⟨categorizeStep_external, categorizeStep_broken, categorizeStep_neither⟩

/-- Claim C4: on a non-empty input that categorized successfully,
`_process_errors` completes with a non-empty `error_messages`, which it
writes newline-joined to the diagnostic stream and retains on the
instance. -/
theorem process_messages_nonempty (errors : List LinkError) (stf : HandlerState)
    (h1 : errors ≠ [])
    (h : categorize_errors initState errors = Except.ok stf) :
    ∃ stp, process_errors stf = Except.ok stp ∧
      stp.error_messages ≠ [] ∧
      stp.stderr = stf.stderr ++
        [String.intercalate "\n" stp.error_messages ++ "\n"] :=
  process_after_categorize h1 h

/-- Witness for C4 at a single broken-linkage record. -/
theorem process_messages_nonempty_witness :
    (exampleBrokenOnly ≠ [] ∧
     categorize_errors initState exampleBrokenOnly = Except.ok brokenCategorized) ∧
    ∃ stp, process_errors brokenCategorized = Except.ok stp ∧
      stp.error_messages ≠ [] ∧
      stp.stderr = brokenCategorized.stderr ++
        [String.intercalate "\n" stp.error_messages ++ "\n"] :=
  ⟨⟨by decide, rfl⟩,
   process_messages_nonempty exampleBrokenOnly brokenCategorized (by decide) rfl⟩

/-- Claim C5: after `_categorize_errors`, `new_library_recipe_needed` is
exactly `extern.values()` in mapping-insertion order, so in particular its
length equals the number of entries of `extern`. -/
theorem recipe_needed_matches_extern (errors : List LinkError)
    (stf : HandlerState)
    (h : categorize_errors initState errors = Except.ok stf) :
    stf.new_library_recipe_needed = dictValues stf.externMap ∧
    stf.new_library_recipe_needed.length = stf.externMap.length := by
  obtain ⟨st1, hl, ha, rfl⟩ := categorize_ok_inv h
  have hun := (categorizeLoop_untouched errors hl).1
  constructor
  · show st1.new_library_recipe_needed ++ dictValues st1.externMap =
      dictValues st1.externMap
    rw [hun]
    rfl
  · show (st1.new_library_recipe_needed ++ dictValues st1.externMap).length =
      st1.externMap.length
    rw [hun]
    simp [initState, dictValues]

/-- Witness for C5 at an input with a duplicated external name. -/
theorem recipe_needed_matches_extern_witness :
    categorize_errors initState exampleDupExternal = Except.ok dupCategorized ∧
    (dupCategorized.new_library_recipe_needed = dictValues dupCategorized.externMap ∧
     dupCategorized.new_library_recipe_needed.length = dupCategorized.externMap.length) :=
  ⟨rfl, recipe_needed_matches_extern exampleDupExternal dupCategorized rfl⟩

/-- Claim C6: if the same library name occurs both as a broken-linkage and
as an external-linkage record, the pipeline raises the disjointness
assertion — whose data names the conflicting library — before anything is
written to the diagnostic stream (so `_process_errors` and `_finalize` are
never reached), for either value of the ignore flag. -/
theorem conflict_raises_disjointness (errors : List LinkError) (n t : String)
    (ig : Bool) (hw : wellFormed errors)
    (hb : LinkError.brokenLinkage n ∈ errors)
    (he : LinkError.externalLinkage n t ∈ errors) :
    ∃ inter left right st,
      handle errors ig =
        HandleResult.raisedAssertion
          (AssertErr.disjointnessViolated inter left right) st ∧
      n ∈ inter ∧ st.stderr = [] := by
  obtain ⟨st1, hl⟩ := categorizeLoop_ok_of_wellFormed errors initState hw
  have hk : n ∈ dictKeys st1.externMap :=
    (categorizeLoop_keys_mem _ hl n).mpr (Or.inr ⟨t, he⟩)
  have hbm : n ∈ st1.broken :=
    (categorizeLoop_broken_mem _ hl n).mpr (Or.inr hb)
  obtain ⟨herr, hmem⟩ := assert_disjoint_error_of_mem hk hbm
  refine ⟨(dictKeys st1.externMap).filter (fun y => decide (y ∈ st1.broken)),
    dictKeys st1.externMap, st1.broken, st1, ?_, hmem, ?_⟩
  · simp [handle, categorize_errors, hl, herr]
  · exact (categorizeLoop_untouched errors hl).2.2

/-- Witness for C6 at a two-record conflicting input. -/
theorem conflict_raises_disjointness_witness :
    (wellFormed exampleConflict ∧
     LinkError.brokenLinkage "liba.so" ∈ exampleConflict ∧
     LinkError.externalLinkage "liba.so" "/opt/libs/liba.so" ∈ exampleConflict) ∧
    ∃ inter left right st,
      handle exampleConflict true =
        HandleResult.raisedAssertion
          (AssertErr.disjointnessViolated inter left right) st ∧
      "liba.so" ∈ inter ∧ st.stderr = [] :=
  ⟨⟨by decide, by decide, by decide⟩,
   conflict_raises_disjointness exampleConflict "liba.so" "/opt/libs/liba.so"
     true (by decide) (by decide) (by decide)⟩

/-- Claim C7: `_finalize` appends the one fixed closing message to the
diagnostic stream whatever the state, and consequently whenever `handle`
ends in a normal return or in `sys.exit(1)` — for any input and either
ignore flag — the last stderr write is that fixed message. -/
theorem finalize_fixed_message :
    (∀ st, finalize st =
       { st with stderr := st.stderr ++ [final_message ++ "\n"] }) ∧
    (∀ (errors : List LinkError) (ig : Bool) (st : HandlerState),
       handle errors ig = HandleResult.returned st ∨
       handle errors ig = HandleResult.exited 1 st →
       st.stderr.getLast? = some (final_message ++ "\n")) := by
  refine ⟨fun st => rfl, ?_⟩
  intro errors ig st h
  unfold handle at h
  cases hc : categorize_errors initState errors with
  | error p =>
    obtain ⟨a, stE⟩ := p
    simp only [hc] at h
    rcases h with h | h <;> cases h
  | ok stf =>
    simp only [hc] at h
    cases hp : process_errors stf with
    | error p =>
      obtain ⟨a, stE⟩ := p
      simp only [hp] at h
      rcases h with h | h <;> cases h
    | ok stp =>
      simp only [hp] at h
      cases ig with
      | true =>
        simp at h
        exact h ▸ getLast?_finalize stp
      | false =>
        simp at h
        exact h ▸ getLast?_finalize stp

/-- Witness for C7 at a single broken-linkage record, ignoring errors. -/
theorem finalize_fixed_message_witness :
    handle exampleBrokenOnly true = HandleResult.returned brokenHandled ∧
    brokenHandled.stderr.getLast? = some (final_message ++ "\n") :=
  ⟨rfl, finalize_fixed_message.2 exampleBrokenOnly true brokenHandled (Or.inl rfl)⟩

/-- Claim C8: every instance starts with empty classification fields at
construction, and categorization is a pure function of the input collection:
two runs from freshly constructed state over the same collection produce
identical `names`, `broken`, `extern` and `new_library_recipe_needed`. -/
theorem categorize_fresh_deterministic :
    (initState.names = [] ∧ initState.broken = [] ∧ initState.externMap = [] ∧
     initState.new_library_recipe_needed = [] ∧ initState.error_messages = []) ∧
    (∀ (errors : List LinkError) (st1 st2 : HandlerState),
       categorize_errors initState errors = Except.ok st1 →
       categorize_errors initState errors = Except.ok st2 →
       st1.names = st2.names ∧ st1.broken = st2.broken ∧
       st1.externMap = st2.externMap ∧
       st1.new_library_recipe_needed = st2.new_library_recipe_needed) := by
  refine ⟨⟨rfl, rfl, rfl, rfl, rfl⟩, ?_⟩
  intro errors st1 st2 h1 h2
  rw [h1] at h2
  cases h2
  exact ⟨rfl, rfl, rfl, rfl⟩

/-- Witness for C8 at the mixed example input. -/
theorem categorize_fresh_deterministic_witness :
    categorize_errors initState exampleMixed = Except.ok mixedCategorized ∧
    (mixedCategorized.names = mixedCategorized.names ∧
     mixedCategorized.broken = mixedCategorized.broken ∧
     mixedCategorized.externMap = mixedCategorized.externMap ∧
     mixedCategorized.new_library_recipe_needed =
       mixedCategorized.new_library_recipe_needed) :=
  ⟨rfl, categorize_fresh_deterministic.2 exampleMixed
    mixedCategorized mixedCategorized rfl rfl⟩

/-- Claim C9: after a completed run, the keys of `extern` are unique; the
entry for a name is the `actual_link_target` of the last external-linkage
record bearing that name; a name is a key exactly when some external-linkage
record bears it; and `new_library_recipe_needed` holds one path per distinct
external name, not one per input record. -/
theorem extern_last_seen (errors : List LinkError) (stf : HandlerState)
    (h : categorize_errors initState errors = Except.ok stf) :
    (dictKeys stf.externMap).Nodup ∧
    (∀ n, dictGet stf.externMap n = lastExternalTarget errors n) ∧
    (∀ n, n ∈ dictKeys stf.externMap ↔
       ∃ t, LinkError.externalLinkage n t ∈ errors) ∧
    stf.new_library_recipe_needed.length = (dictKeys stf.externMap).length := by
  obtain ⟨st1, hl, ha, rfl⟩ := categorize_ok_inv h
  refine ⟨?_, ?_, ?_, ?_⟩
  · show (dictKeys st1.externMap).Nodup
    exact categorizeLoop_nodup errors hl (by simp [initState, dictKeys])
  · intro n
    show dictGet st1.externMap n = lastExternalTarget errors n
    rw [categorizeLoop_dictGet errors hl n]
    cases hlast : lastExternalTarget errors n <;> simp [initState, dictGet]
  · intro n
    show n ∈ dictKeys st1.externMap ↔ ∃ t, LinkError.externalLinkage n t ∈ errors
    rw [categorizeLoop_keys_mem errors hl n]
    simp [initState, dictKeys]
  · show (st1.new_library_recipe_needed ++ dictValues st1.externMap).length =
      (dictKeys st1.externMap).length
    rw [(categorizeLoop_untouched errors hl).1]
    simp [initState, dictValues, dictKeys]

/-- Witness for C9 at an input repeating one external name with two paths. -/
theorem extern_last_seen_witness :
    categorize_errors initState exampleDupExternal = Except.ok dupCategorized ∧
    dictGet dupCategorized.externMap "libbar.so" =
      lastExternalTarget exampleDupExternal "libbar.so" ∧
    dupCategorized.new_library_recipe_needed.length =
      (dictKeys dupCategorized.externMap).length :=
  ⟨rfl, (extern_last_seen exampleDupExternal dupCategorized rfl).2.1 "libbar.so",
   (extern_last_seen exampleDupExternal dupCategorized rfl).2.2.2⟩

/-- Claim C10: on an empty error collection, categorization completes with
every classification field still empty, `_process_errors` fails its
`assert msgs`, and `handle` — under either ignore flag — propagates that
assertion failure with nothing written to stderr, instead of returning
normally or exiting. -/
theorem handle_empty_collection :
    categorize_errors initState [] = Except.ok initState ∧
    process_errors initState = Except.error (AssertErr.msgsEmpty, initState) ∧
    handle [] true = HandleResult.raisedAssertion AssertErr.msgsEmpty initState ∧
    handle [] false = HandleResult.raisedAssertion AssertErr.msgsEmpty initState ∧
    initState.stderr = [] :=
  ⟨rfl, rfl, rfl, rfl, rfl⟩

end CondaBuild
